import Mathlib

/-!
Verification development for the `ninebot-ble` BLE scooter client.

Shallow embedding of the protocol core found in `src/ninebot_ble/transport.py`
and `src/ninebot_ble/register.py`:
byte strings are `List Nat` (each element a byte value), Python exceptions are
modelled by `Option`/dedicated failure constructors, and the stateful
notification handler is modelled as an explicit state transition.
-/

namespace NinebotBle

/-- Command enum from transport.py (`class Command(enum.Enum)`). -/
inductive Command where
  | READ
  | WRITE
  | WRITE_ACK_NO_REPLY
  | READ_ACK
  | WRITE_ACK
  | INIT
  | PING
  | PAIR
deriving DecidableEq, Repr

/-- Numeric wire value of each `Command` member. -/
def Command.value : Command → Nat
  | .READ => 0x01
  | .WRITE => 0x02
  | .WRITE_ACK_NO_REPLY => 0x03
  | .READ_ACK => 0x04
  | .WRITE_ACK => 0x05
  | .INIT => 0x5B
  | .PING => 0x5C
  | .PAIR => 0x5D

/-- Python `Command(n)`: `some` member on a known value, `none` models the
`ValueError` raised on an unknown value. -/
def Command.ofNat? : Nat → Option Command
  | 0x01 => some .READ
  | 0x02 => some .WRITE
  | 0x03 => some .WRITE_ACK_NO_REPLY
  | 0x04 => some .READ_ACK
  | 0x05 => some .WRITE_ACK
  | 0x5B => some .INIT
  | 0x5C => some .PING
  | 0x5D => some .PAIR
  | _ => none

/-- DeviceId enum from transport.py (`class DeviceId(enum.Enum)`). -/
inductive DeviceId where
  | ES_CONTROL
  | ES_BLE
  | ES_BATT
  | PC
deriving DecidableEq, Repr

/-- Numeric wire value of each `DeviceId` member. -/
def DeviceId.value : DeviceId → Nat
  | .ES_CONTROL => 0x20
  | .ES_BLE => 0x21
  | .ES_BATT => 0x22
  | .PC => 0x3D

/-- Python `DeviceId(n)`: `some` member on a known value, `none` models the
`ValueError` raised on an unknown value. -/
def DeviceId.ofNat? : Nat → Option DeviceId
  | 0x20 => some .ES_CONTROL
  | 0x21 => some .ES_BLE
  | 0x22 => some .ES_BATT
  | 0x3D => some .PC
  | _ => none

/-- Protocol packet (`class Packet` in transport.py).  `data_index` and the
payload bytes are unconstrained naturals, exactly like Python ints; range
checks happen where the source performs them (`struct.pack` / `bytes`). -/
structure Packet where
  source : DeviceId
  target : DeviceId
  command : Command
  data_index : Nat
  data_segment : List Nat
deriving DecidableEq, Repr

/-- Preamble bytes (`Packet.MAGIC`). -/
def Packet.MAGIC : List Nat := [0x5A, 0xA5]

/-- Packet.pack from transport.py.  `struct.pack("BBBBB", ...)` raises
`struct.error` when the length byte or `data_index` exceeds 255, and
`bytes(self.data_segment)` raises `ValueError` on a non-byte element; those
exception paths are modelled by `none`. -/
def Packet.pack (p : Packet) : Option (List Nat) :=
  if p.data_segment.length < 256 ∧ p.data_index < 256 ∧ ∀ b ∈ p.data_segment, b < 256 then
    some (Packet.MAGIC ++
      p.data_segment.length :: p.source.value :: p.target.value ::
      p.command.value :: p.data_index :: p.data_segment)
  else
    none

/-- Result of `Packet.unpack`: the source returns `None` for short, badly
prefixed or truncated input (`fail`), raises `ValueError` from the enum
constructors on an unknown source/target/command byte (`exn`), and otherwise
returns a `Packet` (`ok`). -/
inductive UnpackResult where
  | fail
  | exn
  | ok (p : Packet)
deriving DecidableEq, Repr

/-- Packet.unpack from transport.py, with the two `return None` checks, the
enum conversions (which raise on unknown bytes) and the final construction
`Packet(DeviceId(data[3]), DeviceId(data[4]), Command(data[5]), data[6],
list(data[7:]))`. -/
def Packet.unpack (data : List Nat) : UnpackResult :=
  if data.length < 7 ∨ data.take 2 ≠ Packet.MAGIC then
    .fail
  else
    let segment_len := data.getD 2 0
    if data.length < 7 + segment_len then
      .fail
    else
      match DeviceId.ofNat? (data.getD 3 0), DeviceId.ofNat? (data.getD 4 0),
          Command.ofNat? (data.getD 5 0) with
      | some s, some t, some c => .ok ⟨s, t, c, data.getD 6 0, data.drop 7⟩
      | _, _, _ => .exn

theorem DeviceId.ofNat_of_value (d : DeviceId) : DeviceId.ofNat? d.value = some d := by
  cases d <;> rfl

theorem Command.ofNat_of_command_value (c : Command) : Command.ofNat? c.value = some c := by
  cases c <;> rfl

/-- An input that is long enough, has the right preamble and a consistent
length byte, but whose source byte `0xFF` is not a `DeviceId` value. -/
def unknownSourceInput : List Nat := [0x5A, 0xA5, 0x00, 0xFF, 0x3D, 0x01, 0x00]

/-- C1 counterexample: on `unknownSourceInput` the condition of the claim "source
byte is not a known enum value" holds (length is 7, preamble is `5A A5`, the
len byte is consistent), yet `Packet.unpack` raises `ValueError`
(constructor `exn`) instead of returning a decode-failure result
(constructor `fail`), and returns no packet either. -/
theorem unpack_unknown_enum_raises :
    Packet.unpack unknownSourceInput = UnpackResult.exn ∧
    UnpackResult.exn ≠ UnpackResult.fail ∧
    unknownSourceInput.length = 7 ∧
    unknownSourceInput.take 2 = Packet.MAGIC ∧
    DeviceId.ofNat? (unknownSourceInput.getD 3 0) = none := by
  decide

/-- C1 (amended): `Packet.unpack` returns the decode-failure result exactly
when the input has fewer than 7 bytes, or the preamble differs from `5A A5`,
or the len byte implies more bytes than are present; when those checks pass
but one of the source, target, command bytes is not a known enum value it
raises an exception; for all other inputs it returns a Packet. -/
theorem unpack_characterization (data : List Nat) :
    (Packet.unpack data = UnpackResult.fail ↔
      data.length < 7 ∨ data.take 2 ≠ Packet.MAGIC ∨ data.length < 7 + data.getD 2 0) ∧
    (Packet.unpack data = UnpackResult.exn ↔
      (7 ≤ data.length ∧ data.take 2 = Packet.MAGIC ∧ 7 + data.getD 2 0 ≤ data.length) ∧
      (DeviceId.ofNat? (data.getD 3 0) = none ∨ DeviceId.ofNat? (data.getD 4 0) = none ∨
        Command.ofNat? (data.getD 5 0) = none)) ∧
    ((∃ p, Packet.unpack data = UnpackResult.ok p) ↔
      (7 ≤ data.length ∧ data.take 2 = Packet.MAGIC ∧ 7 + data.getD 2 0 ≤ data.length) ∧
      (DeviceId.ofNat? (data.getD 3 0)).isSome ∧ (DeviceId.ofNat? (data.getD 4 0)).isSome ∧
      (Command.ofNat? (data.getD 5 0)).isSome) := by
  unfold Packet.unpack
  by_cases h1 : data.length < 7 ∨ data.take 2 ≠ Packet.MAGIC
  · rw [if_pos h1]
    refine ⟨?_, ?_, ?_⟩
    · simp only [true_iff]
      rcases h1 with h | h
      · exact Or.inl h
      · exact Or.inr (Or.inl h)
    · simp only [iff_false, false_iff, reduceCtorEq]
      rintro ⟨⟨hlen, hmagic, -⟩, -⟩
      rcases h1 with h | h
      · omega
      · exact h hmagic
    · constructor
      · rintro ⟨p, hp⟩; cases hp
      · rintro ⟨⟨hlen, hmagic, -⟩, -⟩
        rcases h1 with h | h
        · omega
        · exact absurd hmagic h
  · rw [if_neg h1]
    push_neg at h1
    obtain ⟨hlen, hmagic⟩ := h1
    by_cases h2 : data.length < 7 + data.getD 2 0
    · rw [if_pos h2]
      refine ⟨?_, ?_, ?_⟩
      · simp only [true_iff]
        exact Or.inr (Or.inr h2)
      · simp only [false_iff, reduceCtorEq, iff_false]
        rintro ⟨⟨-, -, h⟩, -⟩
        omega
      · constructor
        · rintro ⟨p, hp⟩; cases hp
        · rintro ⟨⟨-, -, h⟩, -⟩
          omega
    · rw [if_neg h2]
      rcases hs : DeviceId.ofNat? (data.getD 3 0) with _ | s <;>
        rcases ht : DeviceId.ofNat? (data.getD 4 0) with _ | t <;>
          rcases hc : Command.ofNat? (data.getD 5 0) with _ | c <;>
            simp_all

/-- C1 witness: the amended characterization applied at a concrete valid
frame, showing it decodes to a packet. -/
theorem unpack_characterization_witness :
    ∃ p, Packet.unpack [0x5A, 0xA5, 0x00, 0x3D, 0x21, 0x5B, 0x00] = UnpackResult.ok p :=
  (unpack_characterization [0x5A, 0xA5, 0x00, 0x3D, 0x21, 0x5B, 0x00]).2.2.mpr
    (by decide)

/-- C2: packing a packet with valid enum fields, a byte-valued data index,
byte-valued payload of length at most 248, then unpacking, returns the same
packet field for field. -/
theorem pack_unpack_roundtrip (p : Packet)
    (hL : p.data_segment.length ≤ 248)
    (hidx : p.data_index < 256)
    (hdata : ∀ b ∈ p.data_segment, b < 256) :
    ∃ bytes, p.pack = some bytes ∧ Packet.unpack bytes = UnpackResult.ok p := by
  refine ⟨Packet.MAGIC ++
      p.data_segment.length :: p.source.value :: p.target.value ::
      p.command.value :: p.data_index :: p.data_segment, ?_, ?_⟩
  · unfold Packet.pack
    rw [if_pos ⟨by omega, hidx, hdata⟩]
  · have e : Packet.MAGIC ++
        p.data_segment.length :: p.source.value :: p.target.value ::
        p.command.value :: p.data_index :: p.data_segment =
        0x5A :: 0xA5 :: p.data_segment.length :: p.source.value :: p.target.value ::
        p.command.value :: p.data_index :: p.data_segment := rfl
    rw [e]
    unfold Packet.unpack
    rw [if_neg (by simp [Packet.MAGIC])]
    simp only [List.getD_cons_succ, List.getD_cons_zero, List.length_cons]
    rw [if_neg (by omega)]
    rw [DeviceId.ofNat_of_value, DeviceId.ofNat_of_value, Command.ofNat_of_command_value]
    rfl

/-- C2 witness: the round trip evaluated at a concrete packet. -/
theorem pack_unpack_roundtrip_witness :
    ∃ bytes, Packet.pack ⟨DeviceId.PC, DeviceId.ES_BLE, Command.PING, 0, [0xAB, 0x01]⟩ =
        some bytes ∧
      Packet.unpack bytes =
        UnpackResult.ok ⟨DeviceId.PC, DeviceId.ES_BLE, Command.PING, 0, [0xAB, 0x01]⟩ :=
  pack_unpack_roundtrip ⟨DeviceId.PC, DeviceId.ES_BLE, Command.PING, 0, [0xAB, 0x01]⟩
    (by decide) (by decide) (by decide)

/-- Reply command expected for a request command, from
`command_replies = {Command.READ: Command.READ_ACK}` and
`command_replies.get(request.command, request.command)` in
`NinebotClient.request`. -/
def Command.expectedReply (c : Command) : Command :=
  if c = Command.READ then Command.READ_ACK else c

/-- Acceptance condition of the request engine, from the packet filter in
`NinebotClient.request` (transport.py lines 203-208). -/
def matchesResponse (request recv : Packet) : Bool :=
  decide (recv.source = request.target ∧ recv.target = request.source ∧
    recv.command = Command.expectedReply request.command ∧
    (0x5 < request.command.value ∨ recv.data_index = request.data_index))

/-- Drain step of the request engine: the first queued packet accepted by
`matchesResponse` is returned. -/
def requestDrain (request : Packet) (queue : List Packet) : Option Packet :=
  queue.find? (fun recv => matchesResponse request recv)

/-- C6: the request engine accepts R for request S iff R.source = S.target,
R.target = S.source, R.command is READ_ACK for a READ request and the command of S itself
otherwise, and for register-access commands (value at most 0x05)
additionally R.data_index = S.data_index; in particular a READ_ACK with a
wrong data index never matches a READ request, while an INIT reply with any
data index matches an INIT request, and every packet the drain returns
satisfies the acceptance condition. -/
theorem request_match_rule :
    (∀ S R : Packet,
      matchesResponse S R = true ↔
        (R.source = S.target ∧ R.target = S.source ∧
          R.command = (if S.command = Command.READ then Command.READ_ACK else S.command) ∧
          (S.command.value ≤ 0x5 → R.data_index = S.data_index))) ∧
    (∀ S R : Packet, S.command = Command.READ → R.data_index ≠ S.data_index →
      matchesResponse S R = false) ∧
    (∀ S R : Packet, S.command = Command.INIT → R.source = S.target → R.target = S.source →
      R.command = Command.INIT → matchesResponse S R = true) ∧
    (∀ (S : Packet) (queue : List Packet) (R : Packet),
      requestDrain S queue = some R → matchesResponse S R = true) := by
  refine ⟨?_, ?_, ?_, ?_⟩
  · intro S R
    simp only [matchesResponse, Command.expectedReply, decide_eq_true_eq]
    constructor
    · rintro ⟨h1, h2, h3, h4⟩
      exact ⟨h1, h2, h3, fun h5 => h4.resolve_left (by omega)⟩
    · rintro ⟨h1, h2, h3, h4⟩
      refine ⟨h1, h2, h3, ?_⟩
      by_cases h : S.command.value ≤ 0x5
      · exact Or.inr (h4 h)
      · exact Or.inl (by omega)
  · intro S R hS hidx
    simp only [matchesResponse]
    apply decide_eq_false
    rintro ⟨-, -, -, h | h⟩
    · rw [hS] at h
      exact absurd h (by decide)
    · exact hidx h
  · intro S R hS hsrc htgt hcmd
    simp only [matchesResponse, decide_eq_true_eq]
    refine ⟨hsrc, htgt, ?_, Or.inl ?_⟩
    · rw [hcmd, hS]
      rfl
    · rw [hS]
      decide
  · intro S queue R h
    exact List.find?_some h

/-- C6 witness: a READ_ACK with the wrong data index is rejected for a READ
request, by the match-rule theorem at concrete packets. -/
theorem request_match_rule_witness :
    matchesResponse ⟨DeviceId.PC, DeviceId.ES_CONTROL, Command.READ, 0x29, [2]⟩
      ⟨DeviceId.ES_CONTROL, DeviceId.PC, Command.READ_ACK, 0x2A, [0xE8, 0x03]⟩ = false :=
  request_match_rule.2.1
    ⟨DeviceId.PC, DeviceId.ES_CONTROL, Command.READ, 0x29, [2]⟩
    ⟨DeviceId.ES_CONTROL, DeviceId.PC, Command.READ_ACK, 0x2A, [0xE8, 0x03]⟩
    rfl (by decide)

/-- Chunk loop of `NinebotClient.send`: the ciphertext is written in slices of
at most 20 bytes, advancing through the buffer until it is exhausted. -/
def sendWrites : List Nat → List (List Nat)
  | [] => []
  | a :: l => (a :: l).take 20 :: sendWrites ((a :: l).drop 20)
termination_by msg => msg.length
decreasing_by
  simp only [List.length_drop, List.length_cons]
  omega

/-- C9: for a ciphertext buffer of length N, `send` produces exactly
the ceiling of N/20 characteristic writes, each of at most 20 bytes, whose
in-order concatenation equals the original buffer. -/
theorem sendWrites_spec (msg : List Nat) :
    (sendWrites msg).length = (msg.length + 19) / 20 ∧
    (sendWrites msg).all (fun chunk => chunk.length ≤ 20) = true ∧
    (sendWrites msg).flatten = msg := by
  match msg with
  | [] => simp [sendWrites]
  | a :: l =>
    obtain ⟨ih1, ih2, ih3⟩ := sendWrites_spec ((a :: l).drop 20)
    refine ⟨?_, ?_, ?_⟩
    · rw [sendWrites]
      simp only [List.length_cons, ih1, List.length_drop] at *
      omega
    · rw [sendWrites]
      simp only [List.all_cons, ih2, Bool.and_true, decide_eq_true_eq, List.length_take]
      omega
    · rw [sendWrites]
      simp only [List.flatten_cons, ih3]
      exact List.take_append_drop 20 (a :: l)
termination_by msg.length
decreasing_by
  simp only [List.length_drop, List.length_cons]
  omega

/-- Mutable state of `NinebotClient` touched by `_read_callback`: the rolling
receive buffer and the receive queue (the bounded asyncio queue is modelled as
the list of packets pushed so far). -/
structure RxState where
  buffer : List Nat
  queue : List Packet
deriving DecidableEq, Repr

/-- Buffer update at the top of `_read_callback`: a notification beginning
with the magic preamble replaces the buffer, anything else is appended. -/
def rxAssemble (s : RxState) (data : List Nat) : List Nat :=
  if data.take 2 = Packet.MAGIC then data else s.buffer ++ data

/-- One invocation of `NinebotClient._read_callback` on notification `data`,
parameterized by the `decrypt` operation of the session cipher (a black box, assumed
length-preserving by the spec but unconstrained here).  The source reads
`self.receive_buffer[2]` without a length guard — a buffer shorter than
3 bytes raises `IndexError` — and `Packet.unpack` can raise `ValueError` on
an unknown enum byte; both exception paths are modelled by `none`. -/
def readCallback (decrypt : List Nat → List Nat) (s : RxState) (data : List Nat) :
    Option RxState :=
  match (rxAssemble s data).get? 2 with
  | none => none
  | some lenByte =>
    if (decrypt (rxAssemble s data)).length = lenByte + 7 then
      match Packet.unpack (decrypt (rxAssemble s data)) with
      | .ok p => some ⟨rxAssemble s data, s.queue ++ [p]⟩
      | .fail => some ⟨rxAssemble s data, s.queue⟩
      | .exn => none
    else if lenByte + 7 ≤ (decrypt (rxAssemble s data)).length then
      some ⟨[], s.queue⟩
    else
      some ⟨rxAssemble s data, s.queue⟩

/-- A complete 7-byte frame (READ_ACK from ES_BLE to PC, empty payload). -/
def completeFrame : List Nat := [0x5A, 0xA5, 0x00, 0x21, 0x3D, 0x04, 0x00]

/-- C3 counterexample: with the identity cipher and an empty initial state,
a notification carrying one complete frame satisfies the hypotheses of the claim
(decrypted length equals decrypted[2] + 7, decode succeeds), and the packet
is pushed onto the receive queue — but the receive buffer still holds the
whole frame afterwards instead of being cleared. -/
theorem readCallback_keeps_buffer :
    readCallback id ⟨[], []⟩ completeFrame =
      some ⟨completeFrame, [⟨DeviceId.ES_BLE, DeviceId.PC, Command.READ_ACK, 0x00, []⟩]⟩ ∧
    (id completeFrame).length = (id completeFrame).getD 2 0 + 7 ∧
    Packet.unpack (id completeFrame) =
      UnpackResult.ok ⟨DeviceId.ES_BLE, DeviceId.PC, Command.READ_ACK, 0x00, []⟩ ∧
    completeFrame ≠ ([] : List Nat) := by
  refine ⟨by decide, by decide, by decide, by decide⟩

/-- C3 (amended): whenever the decrypted buffer length equals the declared
frame length (length byte of the assembled buffer plus 7) and the frame
decodes successfully, the packet is pushed onto the receive queue, but the
receive buffer is not cleared: it retains the assembled bytes. -/
theorem readCallback_success_pushes (decrypt : List Nat → List Nat) (s : RxState)
    (data : List Nat) (lenByte : Nat) (p : Packet)
    (h2 : (rxAssemble s data).get? 2 = some lenByte)
    (hlen : (decrypt (rxAssemble s data)).length = lenByte + 7)
    (hok : Packet.unpack (decrypt (rxAssemble s data)) = UnpackResult.ok p) :
    readCallback decrypt s data = some ⟨rxAssemble s data, s.queue ++ [p]⟩ ∧
    rxAssemble s data ≠ [] := by
  constructor
  · unfold readCallback
    rw [h2, hlen, hok]
    simp
  · intro hnil
    rw [hnil] at h2
    cases h2

/-- C3 witness: the amended theorem applied at the identity cipher, an empty
state and a concrete one-frame notification. -/
theorem readCallback_success_pushes_witness :
    readCallback id ⟨[], [⟨DeviceId.ES_BLE, DeviceId.PC, Command.PING, 1, []⟩]⟩ completeFrame =
      some ⟨completeFrame,
        [⟨DeviceId.ES_BLE, DeviceId.PC, Command.PING, 1, []⟩,
         ⟨DeviceId.ES_BLE, DeviceId.PC, Command.READ_ACK, 0x00, []⟩]⟩ ∧
    rxAssemble ⟨[], [⟨DeviceId.ES_BLE, DeviceId.PC, Command.PING, 1, []⟩]⟩ completeFrame ≠ [] :=
  readCallback_success_pushes id ⟨[], [⟨DeviceId.ES_BLE, DeviceId.PC, Command.PING, 1, []⟩]⟩
    completeFrame 0x00 ⟨DeviceId.ES_BLE, DeviceId.PC, Command.READ_ACK, 0x00, []⟩
    (by decide) (by decide) (by decide)

/-- C10: the notification handler is not total — a first notification
consisting of exactly the two magic bytes leaves the buffer shorter than
3 bytes, and reading the declared length at index 2 raises IndexError
(modelled by `none`) instead of waiting for more data, whatever the cipher
does. -/
theorem readCallback_short_buffer_raises (decrypt : List Nat → List Nat) :
    readCallback decrypt ⟨[], []⟩ [0x5A, 0xA5] = none :=
  rfl

/-- Exit paths of the pairing loop inside `NinebotClient.connect`
(transport.py lines 131-145). -/
inductive PairExit where
  | viaPing
  | viaPair
  | exhausted
deriving DecidableEq, Repr

/-- Outcome of the pairing loop: whether `crypto.set_app_data(APP_KEY)` has
been called by the time the loop exits, and through which branch it exited. -/
structure PairLoopResult where
  appKeyInstalled : Bool
  exit : PairExit
deriving DecidableEq, Repr

/-- Pairing loop of `NinebotClient.connect`.  `resp` is the current value of
the `resp` variable (initially the PING reply with data_index 0); each
element of `events` is the `receive()` outcome of one loop iteration, `none`
standing for a `TimeoutError` (which leaves `resp` unchanged, since the
source keeps the previous value via `except TimeoutError: pass`).  The PING
branch calls `set_app_data` and breaks; the PAIR branch breaks without
touching the cipher. -/
def pairLoop (resp : Packet) (events : List (Option Packet)) (installed : Bool) :
    PairLoopResult :=
  match events with
  | [] => ⟨installed, .exhausted⟩
  | e :: rest =>
    let r := e.getD resp
    if r.command = Command.PING ∧ r.data_index = 1 then
      ⟨true, .viaPing⟩
    else if r.command = Command.PAIR ∧ r.data_index = 1 then
      ⟨installed, .viaPair⟩
    else
      pairLoop r rest installed

/-- Pairing loop as entered from `connect`: at loop entry `set_app_data` has
never been called (connect has only called `set_name` and `set_ble_data`). -/
def connectPairLoop (pingResp : Packet) (events : List (Option Packet)) : PairLoopResult :=
  pairLoop pingResp events false

/-- The PING reply with data_index 0 that routes `connect` into the loop. -/
def pingReplyNotPaired : Packet := ⟨DeviceId.ES_BLE, DeviceId.PC, Command.PING, 0, []⟩

/-- A received PAIR packet with data_index 1. -/
def pairReplyPaired : Packet := ⟨DeviceId.ES_BLE, DeviceId.PC, Command.PAIR, 1, []⟩

/-- C4 counterexample: if the first received packet is PAIR with
data_index 1, the loop exits through the PAIR branch with the app key not
installed — `set_app_data` was never called, contrary to the claim. -/
theorem pairLoop_pair_exit_no_app_key :
    (connectPairLoop pingReplyNotPaired [some pairReplyPaired]).exit = PairExit.viaPair ∧
    (connectPairLoop pingReplyNotPaired [some pairReplyPaired]).appKeyInstalled = false := by
  decide

theorem pairLoop_installed_invariant (events : List (Option Packet)) :
    ∀ (resp : Packet) (installed : Bool),
      ((pairLoop resp events installed).exit = PairExit.viaPair →
        (pairLoop resp events installed).appKeyInstalled = installed) ∧
      ((pairLoop resp events installed).exit = PairExit.viaPing →
        (pairLoop resp events installed).appKeyInstalled = true) := by
  induction events with
  | nil =>
    intro resp installed
    constructor
    · rintro ⟨⟩
    · rintro ⟨⟩
  | cons e rest ih =>
    intro resp installed
    unfold pairLoop
    by_cases h1 : (e.getD resp).command = Command.PING ∧ (e.getD resp).data_index = 1
    · rw [if_pos h1]
      refine ⟨fun h => ?_, fun _ => rfl⟩
      cases h
    · rw [if_neg h1]
      by_cases h2 : (e.getD resp).command = Command.PAIR ∧ (e.getD resp).data_index = 1
      · rw [if_pos h2]
        refine ⟨fun _ => rfl, fun h => ?_⟩
        cases h
      · rw [if_neg h2]
        exact ih (e.getD resp) installed

/-- C4 (amended): if the pairing loop exits because a PAIR packet with
data_index 1 was received (the PING path not having been taken), the app key
has NOT been installed in the cipher by the loop: `set_app_data` is called
only on the PING branch, which exits immediately. -/
theorem pairLoop_app_key_only_via_ping (pingResp : Packet) (events : List (Option Packet)) :
    ((connectPairLoop pingResp events).exit = PairExit.viaPair →
      (connectPairLoop pingResp events).appKeyInstalled = false) ∧
    ((connectPairLoop pingResp events).exit = PairExit.viaPing →
      (connectPairLoop pingResp events).appKeyInstalled = true) :=
  pairLoop_installed_invariant events pingResp false

/-- C4 witness: the amended theorem applied to the concrete one-event run
that exits through the PAIR branch. -/
theorem pairLoop_app_key_only_via_ping_witness :
    (connectPairLoop pingReplyNotPaired
      [none, some pairReplyPaired]).appKeyInstalled = false :=
  (pairLoop_app_key_only_via_ping pingReplyNotPaired [none, some pairReplyPaired]).1
    (by decide)

/-- Model of the process-wide randomness: `draw k` is the k-th 16-byte token
the process would obtain from `secrets.token_bytes(16)`. -/
def NinebotClient.APP_KEY (draw : Nat → List Nat) : List Nat := draw 0

/-- Client state relevant to the app key. -/
structure ClientState where
  app_key : List Nat
deriving DecidableEq, Repr

/-- Construction of a `NinebotClient`.  `APP_KEY = secrets.token_bytes(16)`
is a class attribute, evaluated once when the class body runs (draw 0);
`__init__` draws no randomness, so the constructor returns the next unused
draw index unchanged and the instance reads the class attribute. -/
def NinebotClient.construct (draw : Nat → List Nat) (nextDraw : Nat) : ClientState × Nat :=
  (⟨NinebotClient.APP_KEY draw⟩, nextDraw)

/-- An injective stream of 16-byte draws: draw k repeats the byte k. -/
def distinctDraws : Nat → List Nat := fun k => List.replicate 16 (k % 256)

/-- C5 counterexample: constructing two clients in sequence (threading the
draw counter, which starts at 1 because the class body consumed draw 0)
yields the same app key for both — draw 0 — even though the stream has a
fresh distinct value available, so the keys are not independent per-instance
draws: both instances share one process-wide key. -/
theorem app_key_shared_between_instances :
    ((NinebotClient.construct distinctDraws 1).1).app_key =
      ((NinebotClient.construct distinctDraws
        (NinebotClient.construct distinctDraws 1).2).1).app_key ∧
    ((NinebotClient.construct distinctDraws 1).1).app_key = distinctDraws 0 ∧
    distinctDraws 0 ≠ distinctDraws 1 := by
  refine ⟨rfl, rfl, by decide⟩

/-- C5 (amended): the 16-byte app key is generated once per process, when
the NinebotClient class body is evaluated; construction consumes no fresh
randomness, and the app_key of every instance is that same class-level draw, so
any two instances share one process-wide key. -/
theorem app_key_process_wide (draw : Nat → List Nat) (n m : Nat) :
    (NinebotClient.construct draw n).1.app_key = NinebotClient.APP_KEY draw ∧
    (NinebotClient.construct draw n).2 = n ∧
    (NinebotClient.construct draw n).1.app_key =
      (NinebotClient.construct draw m).1.app_key :=
  ⟨rfl, rfl, rfl⟩

/-- Decoder `_unpack_LE16` from register.py: asserts a 2-byte input (the
failed assertion is modelled by `none`) and returns `(data[1] << 8) | data[0]`. -/
def unpack_LE16 (data : List Nat) : Option Nat :=
  if data.length = 2 then
    some ((data.getD 1 0 <<< 8) ||| data.getD 0 0)
  else
    none

/-- Decoder `_unpack_LES16` from register.py: `struct.unpack("<h", bytes(data))`,
which needs exactly two byte-valued elements and sign-extends the 16-bit value. -/
def unpack_LES16 (data : List Nat) : Option Int :=
  if data.length = 2 ∧ data.getD 0 0 < 256 ∧ data.getD 1 0 < 256 then
    some (if data.getD 0 0 + 256 * data.getD 1 0 < 0x8000 then
      ((data.getD 0 0 + 256 * data.getD 1 0 : Nat) : Int)
    else
      ((data.getD 0 0 + 256 * data.getD 1 0 : Nat) : Int) - 0x10000)
  else
    none

/-- Decoder `_unpack_LE16_bitfield_bool` from register.py: bit `pos` of the
16-bit little-endian word. -/
def unpack_LE16_bitfield_bool (data : List Nat) (pos : Nat) : Option Bool :=
  (unpack_LE16 data).map (fun word => decide (0 < word &&& (1 <<< pos)))

/-- Decoder `_unpack_U32_from2LE16` from register.py: two little-endian
16-bit words, the second shifted left 16 bits.  `_unpack_LE16` on the two
halves enforces the 4-byte length assertion. -/
def unpack_U32_from2LE16 (data : List Nat) : Option Nat :=
  (unpack_LE16 (data.take 2)).bind fun low =>
    (unpack_LE16 (data.drop 2)).map fun high => low + (high <<< 16)

/-- Decoder `_unpack_version` from register.py: formats the 16-bit word as
three dot-separated nibble-decimal components. -/
def unpack_version (data : List Nat) : Option String :=
  (unpack_LE16 data).map fun val =>
    toString (val >>> 8) ++ "." ++ toString ((val >>> 4) &&& 0xF) ++ "." ++ toString (val &&& 0xF)

/-- Scaler of the BAT_TEMP_CUR1 catalog entry (`lambda x: (x & 0xFF) - 20`),
applied to the nonnegative `_unpack_LE16` result. -/
def batTempCur1Scaler (x : Nat) : Int := ((x &&& 0xFF : Nat) : Int) - 20

/-- Scaler of the BAT_TEMP_CUR2 catalog entry
(`lambda x: ((x >> 8) & 0xFF) - 20`), applied to the nonnegative
`_unpack_LE16` result. -/
def batTempCur2Scaler (x : Nat) : Int := (((x >>> 8) &&& 0xFF : Nat) : Int) - 20

/-- C8: the decoder laws — u16_le, s16_le, u32_from_two_u16_le, version,
bitfield_bool and the two BMS temperature scalers evaluate as the spec
states on the given inputs. -/
theorem decoder_laws :
    unpack_LE16 [0x34, 0x12] = some 0x1234 ∧
    unpack_LES16 [0xFF, 0xFF] = some (-1) ∧
    unpack_U32_from2LE16 [0x01, 0x00, 0x00, 0x80] = some 0x80000001 ∧
    unpack_version [0x34, 0x12] = some "18.3.4" ∧
    unpack_LE16_bitfield_bool [0x04, 0x00] 2 = some true ∧
    unpack_LE16_bitfield_bool [0x04, 0x00] 0 = some false ∧
    batTempCur1Scaler 0x2928 = 20 ∧
    batTempCur2Scaler 0x2928 = 21 := by
  refine ⟨by decide, by decide, by decide, ?_, by decide, by decide, by decide, by decide⟩
  rfl

/-- Rounding to an integer as the Python builtin `round` does, on exact
rationals: round half to even. -/
def pyRound (q : ℚ) : Int :=
  if q - (q.num.ediv q.den : Int) < 1 / 2 then
    q.num.ediv q.den
  else if (1 : ℚ) / 2 < q - (q.num.ediv q.den : Int) then
    q.num.ediv q.den + 1
  else if (q.num.ediv q.den) % 2 = 0 then
    q.num.ediv q.den
  else
    q.num.ediv q.den + 1

/-- Python `round(x, 1)` on exact rationals. -/
def pyRound1dp (q : ℚ) : ℚ := ((pyRound (q * 10) : Int) : ℚ) / 10

/-- Register descriptor (`class RegDesc` in register.py), carrying the fields
that drive `read_reg`; `device_class` and `unit` are inert metadata and
omitted. -/
structure RegDesc (T : Type) where
  index_start : Nat
  index_len : Nat
  read_len : Nat
  unpacker : List Nat → T
  scaler : Option (T → T)

/-- Application of the optional scaler at the end of `read_reg`. -/
def applyScaler {T : Type} (scaler : Option (T → T)) (x : T) : T :=
  match scaler with
  | some f => f x
  | none => x

/-- The catalog entry `_CTRL_TABLE[CtrlIdx.NB_INF_RID_MIL]` (total mileage):
`RegDesc(0x29, 2, 2, _unpack_U32_from2LE16, scaler=lambda x: round(x / 1000, 1))`.
The decoded integer is carried into ℚ so that the true division and
1-decimal rounding of the scaler can be applied exactly; the `Option` models
the length assertion of the decoder. -/
def NB_INF_RID_MIL_desc : RegDesc (Option ℚ) where
  index_start := 0x29
  index_len := 2
  read_len := 2
  unpacker := fun data => (unpack_U32_from2LE16 data).map (fun n => (n : ℚ))
  scaler := some (Option.map (fun x => pyRound1dp (x / 1000)))

/-- The `read_reg` method of `NinebotClient`, for a register of decoded type
`T`.  `replies` maps a register index to the payload of the matching
READ_ACK obtained by `request`; the loop issues one READ request per index,
extends the accumulator with each reply payload, then applies the unpacker
and the optional scaler.  The result pairs the issued requests with the
returned value. -/
def readReg {T : Type} (reg : RegDesc T) (target : DeviceId) (replies : Nat → List Nat) :
    List Packet × T :=
  let acc := (List.range reg.index_len).foldl
    (fun acc i =>
      (acc.1 ++ [Packet.mk DeviceId.PC target Command.READ (reg.index_start + i) [reg.read_len]],
        acc.2 ++ replies (reg.index_start + i)))
    ([], [])
  (acc.1, applyScaler reg.scaler (reg.unpacker acc.2))

theorem readReg_foldl (f : Nat → Packet) (g : Nat → List Nat) (n : Nat) :
    ∀ (as : List Packet) (bs : List Nat),
      (List.range n).foldl (fun (acc : List Packet × List Nat) i =>
          (acc.1 ++ [f i], acc.2 ++ g i)) (as, bs) =
        (as ++ (List.range n).map f, bs ++ ((List.range n).map g).flatten) := by
  induction n with
  | zero => intro as bs; simp
  | succ k ih =>
    intro as bs
    rw [List.range_succ, List.foldl_append, ih]
    simp

/-- The reply payloads of the mileage scenario: READ_ACK for index 0x29
carries [0xE8, 0x03] and READ_ACK for index 0x2A carries [0x00, 0x00]. -/
def mileageReplies : Nat → List Nat := fun idx =>
  if idx = 0x29 then [0xE8, 0x03] else if idx = 0x2A then [0x00, 0x00] else []

/-- C7: for every register descriptor, `read_reg` issues exactly `index_len`
READ requests with data index `index_start + i` for i = 0 .. index_len - 1
in increasing order, each carrying payload [read_len], concatenates the
reply payloads in that order, applies the decoder and then the scaler if
present; in particular the total-mileage register (start 0x29, two reads)
with reply payloads [0xE8, 0x03] and [0x00, 0x00] returns 1.0. -/
theorem readReg_spec :
    (∀ (T : Type) (reg : RegDesc T) (target : DeviceId) (replies : Nat → List Nat),
      (readReg reg target replies).1 =
        (List.range reg.index_len).map
          (fun i => Packet.mk DeviceId.PC target Command.READ (reg.index_start + i)
            [reg.read_len]) ∧
      (readReg reg target replies).2 =
        applyScaler reg.scaler (reg.unpacker
          (((List.range reg.index_len).map
            (fun i => replies (reg.index_start + i))).flatten))) ∧
    (readReg NB_INF_RID_MIL_desc DeviceId.ES_CONTROL mileageReplies).1 =
      [⟨DeviceId.PC, DeviceId.ES_CONTROL, Command.READ, 0x29, [2]⟩,
       ⟨DeviceId.PC, DeviceId.ES_CONTROL, Command.READ, 0x2A, [2]⟩] ∧
    (readReg NB_INF_RID_MIL_desc DeviceId.ES_CONTROL mileageReplies).2 = some (1 : ℚ) := by
  refine ⟨?_, ?_, ?_⟩
  · intro T reg target replies
    unfold readReg
    rw [readReg_foldl
      (fun i => Packet.mk DeviceId.PC target Command.READ (reg.index_start + i) [reg.read_len])
      (fun i => replies (reg.index_start + i)) reg.index_len [] []]
    simp
  · decide
  · show some (pyRound1dp (((1000 : ℕ) : ℚ) / 1000)) = some (1 : ℚ)
    have h : ((1000 : ℕ) : ℚ) / 1000 = 1 := by norm_num
    rw [h]
    unfold pyRound1dp pyRound
    norm_num

end NinebotBle
